import Mathlib

/-!
Verification of the OpenClaw session-recall plugin
(`src/extensions/session-recall/index.ts`).

The plugin is modelled as a pure value-transformation pipeline, following the
source file directly:

* JS strings are modelled as Lean `String`s where only equality and simple
  predicates are needed, and as `List Char` where the code indexes, slices or
  measures text (snippet handling, raw backend output).
* JS numbers are modelled as `ℚ`.  All numeric operations performed by the
  plugin (comparisons, multiplication by decay factors, `Math.round`,
  `Array.prototype.slice` bounds) are exact on the values the plugin handles,
  so `ℚ` is a faithful carrier for them.
* `Array.prototype.sort` with the comparator `(a, b) => b.score - a.score` is
  a stable sort whose output is sorted by non-increasing `score`; any stable
  sort with the boolean relation `b.score ≤ a.score` produces the same list,
  so it is modelled with `List.mergeSort`, which is stable.
* The external `execSync` call, `JSON.parse`, and `statSync` are external
  collaborators: they enter the model as parameters (`Option String` for the
  raw call result, a parse function `String → Option SearchResponse`, and an
  age oracle `String → ℚ`).
-/

/-- Plugin configuration (`sessionRecallConfigSchema`, lines 17-23).  The zod
schema constrains `maxResults` to `[1, 20]` and `minScore` to `[0, 1]`; those
bounds appear as hypotheses of the theorems that need them, because
`register` always runs the raw config through `schema.parse`. -/
structure SessionRecallConfig where
  enabled : Bool
  maxResults : ℚ
  minScore : ℚ
  minPromptLength : ℚ
  agentId : String
deriving DecidableEq

/-- A raw search hit as returned by the backend (`SearchResult`, lines 31-38). -/
structure SearchResult where
  path : String
  startLine : ℤ
  endLine : ℤ
  score : ℚ
  snippet : List Char
  source : String
deriving DecidableEq

/-- The parsed backend response (`SearchResponse`, lines 40-42). -/
structure SearchResponse where
  results : List SearchResult
deriving DecidableEq

/-- A hit after decay has been applied (`DecayedResult`, lines 44-48): the
original fields, with `score` overwritten by the decayed score, plus the raw
score, the age and the decay factor. -/
structure DecayedResult where
  path : String
  startLine : ℤ
  endLine : ℤ
  score : ℚ
  snippet : List Char
  source : String
  rawScore : ℚ
  ageInDays : ℚ
  decayFactor : ℚ
deriving DecidableEq

/-- One decay tier (lines 54-59).  `maxDays = none` models the JS `Infinity`
bound of the last tier, which every finite age satisfies. -/
structure DecayTier where
  maxDays : Option ℚ
  factor : ℚ
deriving DecidableEq

/-- The static decay table `DECAY_TIERS` (lines 54-59). -/
def DECAY_TIERS : List DecayTier :=
  [⟨some 7, 1.0⟩, ⟨some 30, 0.8⟩, ⟨some 90, 0.5⟩, ⟨none, 0.2⟩]

/-- The test `ageInDays <= tier.maxDays` of line 153; `age ≤ Infinity` is true
for every finite age. -/
def tierLe (age : ℚ) (maxDays : Option ℚ) : Bool :=
  match maxDays with
  | some m => decide (age ≤ m)
  | none => true

/-- The `for` loop of `getDecayFactor` (lines 152-156): the factor of the
first tier whose bound admits the age, `none` if no tier matches. -/
def findFactor (age : ℚ) : List DecayTier → Option ℚ
  | [] => none
  | t :: ts => if tierLe age t.maxDays then some t.factor else findFactor age ts

/-- `getDecayFactor` (lines 151-158): walk the tiers, falling back to the last
tier's factor when the loop finds nothing (unreachable with the default
table, whose last tier is unbounded). -/
def getDecayFactor (ageInDays : ℚ) : ℚ :=
  match findFactor ageInDays DECAY_TIERS with
  | some f => f
  | none =>
    match DECAY_TIERS.getLast? with
    | some t => t.factor
    | none => 0

/-- Decay a single hit (the body of the `map` in `applyDecay`, lines 161-171):
spread the original fields, record the raw score, age and factor, and replace
`score` by `score * decayFactor`.  `ageOf` abstracts `getFileAgeInDays`
(an external `statSync` plus clock lookup). -/
def decayResult (ageOf : String → ℚ) (r : SearchResult) : DecayedResult :=
  let ageInDays := ageOf r.path
  let decayFactor := getDecayFactor ageInDays
  { path := r.path, startLine := r.startLine, endLine := r.endLine,
    snippet := r.snippet, source := r.source,
    rawScore := r.score, ageInDays := ageInDays, decayFactor := decayFactor,
    score := r.score * decayFactor }

/-- `applyDecay` (lines 160-172). -/
def applyDecay (ageOf : String → ℚ) (results : List SearchResult) : List DecayedResult :=
  results.map (decayResult ageOf)

/-- Closed form of `getDecayFactor` over the default table. -/
theorem getDecayFactor_eq (a : ℚ) :
    getDecayFactor a =
      if a ≤ 7 then 1 else if a ≤ 30 then 0.8 else if a ≤ 90 then 0.5 else 0.2 := by
  by_cases h7 : a ≤ 7 <;> by_cases h30 : a ≤ 30 <;> by_cases h90 : a ≤ 90 <;>
    simp [getDecayFactor, findFactor, DECAY_TIERS, tierLe, h7, h30, h90] <;> norm_num

/-- The `source === "sessions"` filter of line 213. -/
def sessionFiltered (resp : SearchResponse) : List SearchResult :=
  resp.results.filter (fun r => r.source == "sessions")

/-- The decayed results that survive the `score >= cfg.minScore` filter of
line 217, still in backend order. -/
def decayedFiltered (resp : SearchResponse) (cfg : SessionRecallConfig)
    (ageOf : String → ℚ) : List DecayedResult :=
  (applyDecay ageOf (sessionFiltered resp)).filter
    (fun r => decide (cfg.minScore ≤ r.score))

/-- The sort order of line 218: the comparator `(a, b) => b.score - a.score`
reports `a` may stay before `b` exactly when `b.score - a.score ≤ 0`. -/
def scoreLe (a b : DecayedResult) : Bool :=
  decide (b.score ≤ a.score)

/-- The surviving results after the stable descending sort of line 218.
`Array.prototype.sort` is required by the ECMAScript spec to be stable, and a
stable sort by a total preorder is unique, so `List.mergeSort` is an exact
model. -/
def sortedResults (resp : SearchResponse) (cfg : SessionRecallConfig)
    (ageOf : String → ℚ) : List DecayedResult :=
  (decayedFiltered resp cfg ageOf).mergeSort scoreLe

/-- The bound of `slice(0, cfg.maxResults)` (line 219): JS truncates the
number toward zero, which is the floor for the non-negative values the
schema admits. -/
def sliceCount (q : ℚ) : ℕ :=
  (⌊q⌋).toNat

/-- The post-parse pipeline of `searchSessions` (lines 212-219): filter to
session hits, decay, filter by decayed score, sort descending, truncate. -/
def searchSessionsCore (resp : SearchResponse) (cfg : SessionRecallConfig)
    (ageOf : String → ℚ) : List DecayedResult :=
  (sortedResults resp cfg ageOf).take (sliceCount cfg.maxResults)

/-- The regex `output.match(/\{[\s\S]*\}/)` of line 205 on a character list:
the match (if any) runs from the first `{` to the last `}`, and needs the
closing brace strictly after the opening one. -/
def extractJsonList (cs : List Char) : Option (List Char) :=
  match cs.findIdx? (fun c => c == '{') with
  | none => none
  | some i =>
    match cs.reverse.findIdx? (fun c => c == '}') with
    | none => none
    | some jr =>
      let j := cs.length - 1 - jr
      if i < j then some ((cs.drop i).take (j - i + 1)) else none

/-- `extractJsonList` on a `String`. -/
def extractJson (s : String) : Option String :=
  (extractJsonList s.toList).map List.asString

/-- `searchSessions` (lines 178-223), after the external call.  `callResult`
is the outcome of `execSync` (`none` when it threw: timeout, process error
or oversized output), `parse` abstracts `JSON.parse` plus the shape check
(`none` when parsing threw, which the `catch` of line 220 turns into `[]`). -/
def searchSessions (callResult : Option String)
    (parse : String → Option SearchResponse) (cfg : SessionRecallConfig)
    (ageOf : String → ℚ) : List DecayedResult :=
  match callResult with
  | none => []
  | some output =>
    match extractJson output with
    | none => []
    | some j =>
      match parse j with
      | none => []
      | some resp => searchSessionsCore resp cfg ageOf

/-- Model of `String.prototype.includes` by naive scanning. -/
def listContainsSub (hay needle : List Char) : Bool :=
  match hay with
  | [] => needle.isEmpty
  | _ :: t => needle.isPrefixOf hay || listContainsSub t needle

/-- `String.prototype.includes` on `String`s. -/
def jsIncludes (hay needle : String) : Bool :=
  listContainsSub hay.toList needle.toList

/-- `String.prototype.startsWith` on `String`s. -/
def jsStartsWith (hay pre : String) : Bool :=
  pre.toList.isPrefixOf hay.toList

/-- Character-wise model of `String.prototype.toLowerCase`. -/
def jsToLower (s : String) : String :=
  String.mk (s.toList.map Char.toLower)

/-- The gate of the `before_agent_start` handler (lines 90-98).  `!event.prompt`
is true both when the prompt is missing and when it is the empty string
(the empty string is falsy in JS). -/
def gateSkips (prompt : Option String) (cfg : SessionRecallConfig) : Bool :=
  match prompt with
  | none => true
  | some p =>
    if p == "" || decide ((p.toList.length : ℚ) < cfg.minPromptLength) then
      true
    else
      let promptLower := jsToLower p
      jsIncludes promptLower "heartbeat" || jsStartsWith promptLower "[system"

/-- `Math.round`: round half toward positive infinity. -/
def jsRound (q : ℚ) : ℤ :=
  ⌊q + 1 / 2⌋

/-- `formatAge` (lines 252-259). -/
def formatAge (days : ℚ) : String :=
  if days < 1 then "today"
  else if days < 2 then "yesterday"
  else if days < 7 then toString (jsRound days) ++ "d ago"
  else if days < 30 then toString (jsRound (days / 7)) ++ "w ago"
  else if days < 365 then toString (jsRound (days / 30)) ++ "mo ago"
  else toString (jsRound (days / 365)) ++ "y ago"

/-- `String.prototype.trim` on a character list: drop whitespace from both
ends. -/
def jsTrim (cs : List Char) : List Char :=
  ((cs.dropWhile Char.isWhitespace).reverse.dropWhile Char.isWhitespace).reverse

/-- The ellipsis marker `"..."` appended by the snippet truncation. -/
def ellipsisMarker : List Char :=
  ['.', '.', '.']

/-- The snippet clean-up of `formatContext` (lines 237-240): trim, then cut to
the first 500 characters and append `"..."` when longer than 500. -/
def cleanSnippet (s : List Char) : List Char :=
  let snippet := jsTrim s
  if 500 < snippet.length then snippet.take 500 ++ ellipsisMarker else snippet

/-- One entry of the context block (line 242):
`[i+1] (score%, ageLabel)\n‹cleaned snippet›`. -/
def formatEntry (i : ℕ) (r : DecayedResult) : List Char :=
  ("[" ++ toString (i + 1) ++ "] (" ++ toString (jsRound (r.score * 100))
      ++ "%, " ++ formatAge r.ageInDays ++ ")\n").toList
    ++ cleanSnippet r.snippet

/-- `formatContext` (lines 229-250): number the entries, join them with blank
lines, and wrap them in the fixed `<session-recall>` block. -/
def formatContext (results : List DecayedResult) : List Char :=
  "<session-recall>\nThe following excerpts from recent sessions may be relevant:\n\n".toList
    ++ List.intercalate "\n\n".toList (results.enum.map fun p => formatEntry p.1 p.2)
    ++ "\n</session-recall>".toList

/-- The `before_agent_start` handler (lines 89-117): gate, search, and either
no augmentation or the formatted context. -/
def handleBeforeAgentStart (prompt : Option String) (cfg : SessionRecallConfig)
    (callResult : Option String) (parse : String → Option SearchResponse)
    (ageOf : String → ℚ) : Option (List Char) :=
  if gateSkips prompt cfg then none
  else
    let results := searchSessions callResult parse cfg ageOf
    if results.isEmpty then none
    else some (formatContext results)

/-- One token of the backend command line; numeric arguments are kept as the
numbers the code stringifies (`String(...)`, lines 190 and 192). -/
inductive CmdArg where
  | str (s : String)
  | num (q : ℚ)
deriving DecidableEq

/-- The quote-escaping of line 180: replace every `'` with `'\''`. -/
def escapeQuery (q : String) : String :=
  q.replace "'" "'\\''"

/-- The token list of the backend command (lines 182-194). -/
def buildSearchCmd (query : String) (cfg : SessionRecallConfig) : List CmdArg :=
  [CmdArg.str "openclaw", CmdArg.str "memory", CmdArg.str "search",
   CmdArg.str ("'" ++ escapeQuery query ++ "'"),
   CmdArg.str "--agent", CmdArg.str cfg.agentId,
   CmdArg.str "--max-results", CmdArg.num (cfg.maxResults * 3),
   CmdArg.str "--min-score", CmdArg.num (cfg.minScore * 0.5),
   CmdArg.str "--json"]

/-- Sample configuration used by the concrete instantiations below:
the schema defaults (`maxResults = 5`, `minScore = 0.5`,
`minPromptLength = 10`, `agentId = "main"`). -/
def sampleCfg : SessionRecallConfig :=
  ⟨true, 5, 0.5, 10, "main"⟩

/-- Sample age oracle: every artifact is brand new. -/
def sampleAge : String → ℚ :=
  fun _ => 0

/-- A sample session-derived hit. -/
def sampleHit : SearchResult :=
  ⟨"/tmp/s1.jsonl", 1, 2, 0.9, "hello".toList, "sessions"⟩

/-- A sample backend response with a single session hit. -/
def sampleResp : SearchResponse :=
  ⟨[sampleHit]⟩

/-- Closed form of the tier walk over the default table. -/
theorem findFactor_eq (a : ℚ) :
    findFactor a DECAY_TIERS =
      some (if a ≤ 7 then 1 else if a ≤ 30 then 0.8 else if a ≤ 90 then 0.5 else 0.2) := by
  by_cases h7 : a ≤ 7 <;> by_cases h30 : a ≤ 30 <;> by_cases h90 : a ≤ 90 <;>
    simp [findFactor, DECAY_TIERS, tierLe, h7, h30, h90] <;> norm_num

/-- C2: for every age `a ≥ 0`, `getDecayFactor a` is the factor of the first
tier in the ordered table whose bound admits `a` (the tier walk `findFactor`
finds exactly that factor), and over the default table this is `1.0` for
`a ≤ 7`, `0.8` for `7 < a ≤ 30`, `0.5` for `30 < a ≤ 90`, and `0.2`
otherwise. -/
theorem getDecayFactor_tiering (a : ℚ) (h : 0 ≤ a) :
    findFactor a DECAY_TIERS = some (getDecayFactor a) ∧
    (∀ f, findFactor a DECAY_TIERS = some f → getDecayFactor a = f) ∧
    (a ≤ 7 → getDecayFactor a = 1) ∧
    (7 < a → a ≤ 30 → getDecayFactor a = 0.8) ∧
    (30 < a → a ≤ 90 → getDecayFactor a = 0.5) ∧
    (90 < a → getDecayFactor a = 0.2) := by
  refine ⟨?_, ?_, ?_, ?_, ?_, ?_⟩
  · rw [findFactor_eq, getDecayFactor_eq]
  · intro f hf
    rw [findFactor_eq] at hf
    rw [getDecayFactor_eq]
    exact (Option.some.injEq _ _ ▸ hf)
  · intro h7; rw [getDecayFactor_eq, if_pos h7]
  · intro h7 h30
    rw [getDecayFactor_eq, if_neg (not_le.mpr h7), if_pos h30]
  · intro h30 h90
    rw [getDecayFactor_eq, if_neg (by linarith), if_neg (not_le.mpr h30), if_pos h90]
  · intro h90
    rw [getDecayFactor_eq, if_neg (by linarith), if_neg (by linarith),
      if_neg (not_le.mpr h90)]

/-- Non-vacuity of `getDecayFactor_tiering`: an age of 50 days lands in the
third tier. -/
theorem getDecayFactor_tiering_witness :
    (0 : ℚ) ≤ 50 ∧ getDecayFactor 50 = 0.5 :=
  ⟨by norm_num,
    (getDecayFactor_tiering 50 (by norm_num)).2.2.2.2.1 (by norm_num) (by norm_num)⟩

/-- The factor table only contains values in `(0, 1]`, for any age. -/
theorem getDecayFactor_pos_le_one (a : ℚ) :
    0 < getDecayFactor a ∧ getDecayFactor a ≤ 1 := by
  rw [getDecayFactor_eq]
  split_ifs <;> norm_num

/-- C9: the decay factor is non-increasing in the age, lies strictly within
`(0, 1]`, and consequently every decayed hit's score is at most its raw
score (given the raw score is non-negative, as backend scores are). -/
theorem getDecayFactor_antitone_bounded :
    (∀ a₁ a₂ : ℚ, 0 ≤ a₁ → a₁ ≤ a₂ → getDecayFactor a₂ ≤ getDecayFactor a₁) ∧
    (∀ a : ℚ, 0 ≤ a → 0 < getDecayFactor a ∧ getDecayFactor a ≤ 1) ∧
    (∀ (ageOf : String → ℚ) (l : List SearchResult) (r : DecayedResult),
      r ∈ applyDecay ageOf l → 0 ≤ r.rawScore → r.score ≤ r.rawScore) := by
  refine ⟨?_, fun a _ => getDecayFactor_pos_le_one a, ?_⟩
  · intro a₁ a₂ _ h₁₂
    rw [getDecayFactor_eq, getDecayFactor_eq]
    split_ifs <;> try norm_num
    all_goals linarith
  · intro ageOf l r hr h0
    obtain ⟨r', _, rfl⟩ := List.mem_map.mp hr
    exact mul_le_of_le_one_right h0 (getDecayFactor_pos_le_one _).2

/-- Non-vacuity of `getDecayFactor_antitone_bounded`: ages 10 and 50, and the
sample hit decayed at age 0. -/
theorem getDecayFactor_antitone_bounded_witness :
    getDecayFactor 50 ≤ getDecayFactor 10 ∧
    (decayResult sampleAge sampleHit).score ≤ (decayResult sampleAge sampleHit).rawScore :=
  ⟨getDecayFactor_antitone_bounded.1 10 50 (by norm_num) (by norm_num),
    getDecayFactor_antitone_bounded.2.2 sampleAge [sampleHit]
      (decayResult sampleAge sampleHit) (by simp [applyDecay]) (by norm_num [decayResult, sampleHit])⟩

/-- C4: when the external call fails (`execSync` threw), or its output holds
no parseable JSON block, or `JSON.parse` fails on the extracted block,
`searchSessions` returns the empty list instead of raising. -/
theorem searchSessions_failure_empty (parse : String → Option SearchResponse)
    (cfg : SessionRecallConfig) (ageOf : String → ℚ) (output : String) :
    searchSessions none parse cfg ageOf = [] ∧
    (extractJson output = none → searchSessions (some output) parse cfg ageOf = []) ∧
    (∀ j, extractJson output = some j → parse j = none →
      searchSessions (some output) parse cfg ageOf = []) := by
  refine ⟨rfl, ?_, ?_⟩
  · intro h
    simp [searchSessions, h]
  · intro j hj hp
    simp [searchSessions, hj, hp]

/-- Non-vacuity of `searchSessions_failure_empty`: a backend reply with no
JSON block yields no results. -/
theorem searchSessions_failure_empty_witness :
    extractJson "backend error: no results" = none ∧
    searchSessions (some "backend error: no results") (fun _ => none) sampleCfg sampleAge = [] :=
  ⟨by decide,
    (searchSessions_failure_empty (fun _ => none) sampleCfg sampleAge
      "backend error: no results").2.1 (by decide)⟩

/-- C8: the backend command requests `3 × maxResults` candidates at the
halved threshold `0.5 × minScore`, independently of the query text (every
token from `--agent` on is query-independent). -/
theorem buildSearchCmd_request (query : String) (cfg : SessionRecallConfig) :
    (buildSearchCmd query cfg)[7]? = some (CmdArg.num (3 * cfg.maxResults)) ∧
    (buildSearchCmd query cfg)[9]? = some (CmdArg.num (0.5 * cfg.minScore)) ∧
    0.5 * cfg.minScore = cfg.minScore / 2 ∧
    (∀ query', (buildSearchCmd query' cfg).drop 4 = (buildSearchCmd query cfg).drop 4) := by
  refine ⟨?_, ?_, by ring, fun query' => rfl⟩
  · simp [buildSearchCmd, mul_comm]
  · simp [buildSearchCmd, mul_comm]

/-- C5: the snippet formatter trims, then truncates to the first 500
characters plus the ellipsis marker exactly when the trimmed length exceeds
500; a trimmed snippet of 600 characters becomes 500 characters plus the
marker (503 in total), and one of 500 characters is left unmodified. -/
theorem cleanSnippet_truncation (s : List Char) :
    cleanSnippet s =
      (if 500 < (jsTrim s).length then (jsTrim s).take 500 ++ ellipsisMarker
       else jsTrim s) ∧
    ((jsTrim s).length = 600 →
      cleanSnippet s = (jsTrim s).take 500 ++ ellipsisMarker ∧
      ((jsTrim s).take 500).length = 500 ∧
      (cleanSnippet s).length = 503) ∧
    ((jsTrim s).length = 500 → cleanSnippet s = jsTrim s) := by
  refine ⟨rfl, ?_, ?_⟩
  · intro h600
    have hgt : 500 < (jsTrim s).length := by omega
    have htake : ((jsTrim s).take 500).length = 500 := by
      simp [List.length_take, h600]
    refine ⟨by simp [cleanSnippet, hgt], htake, ?_⟩
    simp [cleanSnippet, hgt, List.length_append, htake, ellipsisMarker]
  · intro h500
    simp [cleanSnippet, h500]

set_option maxRecDepth 100000 in
/-- Non-vacuity of `cleanSnippet_truncation`: 600 copies of `a` truncate to
503 characters. -/
theorem cleanSnippet_truncation_witness :
    cleanSnippet (List.replicate 600 'a') =
      (jsTrim (List.replicate 600 'a')).take 500 ++ ellipsisMarker ∧
    (cleanSnippet (List.replicate 600 'a')).length = 503 := by
  have h := (cleanSnippet_truncation (List.replicate 600 'a')).2.1 (by decide)
  exact ⟨h.1, h.2.2⟩

/-- C6: `formatAge` picks the first matching label: "today" under one day,
"yesterday" under two, rounded days under 7, rounded weeks under 30, rounded
months under 365, rounded years otherwise; in particular 0.5 days is
"today", 1.5 "yesterday", 6.9 "7d ago" and 400 "1y ago". -/
theorem formatAge_labels (d : ℚ) (h : 0 ≤ d) :
    formatAge d =
      (if d < 1 then "today"
       else if d < 2 then "yesterday"
       else if d < 7 then toString (jsRound d) ++ "d ago"
       else if d < 30 then toString (jsRound (d / 7)) ++ "w ago"
       else if d < 365 then toString (jsRound (d / 30)) ++ "mo ago"
       else toString (jsRound (d / 365)) ++ "y ago") ∧
    (d = 1 / 2 → formatAge d = "today") ∧
    (d = 3 / 2 → formatAge d = "yesterday") ∧
    (d = 69 / 10 → formatAge d = "7d ago") ∧
    (d = 400 → formatAge d = "1y ago") := by
  refine ⟨rfl, ?_, ?_, ?_, ?_⟩ <;> rintro rfl
  · simp only [formatAge]
    norm_num
  · simp only [formatAge]
    norm_num
  · simp only [formatAge]
    rw [show jsRound (69 / 10 : ℚ) = 7 by rw [jsRound, Int.floor_eq_iff] <;> norm_num]
    norm_num
    decide
  · simp only [formatAge]
    rw [show jsRound (400 / 365 : ℚ) = 1 by rw [jsRound, Int.floor_eq_iff] <;> norm_num]
    norm_num
    decide

/-- Non-vacuity of `formatAge_labels`: 6.9 days rounds to "7d ago". -/
theorem formatAge_labels_witness :
    (0 : ℚ) ≤ 69 / 10 ∧ formatAge (69 / 10) = "7d ago" :=
  ⟨by norm_num, (formatAge_labels (69 / 10) (by norm_num)).2.2.2.1 rfl⟩

/-- The sort relation is transitive. -/
theorem scoreLe_trans : ∀ a b c : DecayedResult, scoreLe a b → scoreLe b c → scoreLe a c := by
  intro a b c hab hbc
  simp only [scoreLe, decide_eq_true_eq] at hab hbc ⊢
  exact le_trans hbc hab

/-- The sort relation is total. -/
theorem scoreLe_total : ∀ a b : DecayedResult, scoreLe a b || scoreLe b a := by
  intro a b
  rcases le_total a.score b.score with h | h <;> simp [scoreLe, h]

/-- Every result the pipeline returns survived the decayed-score filter. -/
theorem mem_core_decayedFiltered {resp : SearchResponse} {cfg : SessionRecallConfig}
    {ageOf : String → ℚ} {r : DecayedResult}
    (hr : r ∈ searchSessionsCore resp cfg ageOf) : r ∈ decayedFiltered resp cfg ageOf :=
  List.mem_mergeSort.mp (List.take_subset _ _ hr)

/-- Unfolding membership in the filtered decayed list. -/
theorem mem_decayedFiltered_elim {resp : SearchResponse} {cfg : SessionRecallConfig}
    {ageOf : String → ℚ} {r : DecayedResult} (hr : r ∈ decayedFiltered resp cfg ageOf) :
    cfg.minScore ≤ r.score ∧ ∃ r' ∈ sessionFiltered resp, r = decayResult ageOf r' := by
  obtain ⟨hmem, hp⟩ := List.mem_filter.mp hr
  obtain ⟨r', h1, h2⟩ := List.mem_map.mp hmem
  exact ⟨of_decide_eq_true hp, r', h1, h2.symm⟩

/-- C1: the selector returns at most `maxResults` results, each with decayed
score at least `minScore` (the filter acts on the decayed score
`rawScore × decayFactor`, not on the raw score), sorted by non-increasing
decayed score.  The hypothesis `1 ≤ maxResults` is the lower bound the
config schema enforces. -/
theorem searchSessions_selector_contract (resp : SearchResponse)
    (cfg : SessionRecallConfig) (ageOf : String → ℚ) (hmr : 1 ≤ cfg.maxResults) :
    ((searchSessionsCore resp cfg ageOf).length : ℚ) ≤ cfg.maxResults ∧
    (∀ r ∈ searchSessionsCore resp cfg ageOf,
      cfg.minScore ≤ r.score ∧ r.score = r.rawScore * r.decayFactor) ∧
    List.Pairwise (fun a b : DecayedResult => b.score ≤ a.score)
      (searchSessionsCore resp cfg ageOf) := by
  refine ⟨?_, ?_, ?_⟩
  · have h1 : (searchSessionsCore resp cfg ageOf).length ≤ sliceCount cfg.maxResults :=
      List.length_take_le _ _
    have h0 : (0 : ℤ) ≤ ⌊cfg.maxResults⌋ := Int.floor_nonneg.mpr (by linarith)
    have e1 : ((⌊cfg.maxResults⌋.toNat : ℕ) : ℤ) = ⌊cfg.maxResults⌋ := Int.toNat_of_nonneg h0
    have h2 : ((sliceCount cfg.maxResults : ℕ) : ℚ) ≤ cfg.maxResults := by
      unfold sliceCount
      calc ((⌊cfg.maxResults⌋.toNat : ℕ) : ℚ) = ((⌊cfg.maxResults⌋ : ℤ) : ℚ) := by
            exact_mod_cast congrArg (fun z : ℤ => (z : ℚ)) e1
        _ ≤ cfg.maxResults := Int.floor_le _
    calc ((searchSessionsCore resp cfg ageOf).length : ℚ)
        ≤ ((sliceCount cfg.maxResults : ℕ) : ℚ) := by exact_mod_cast h1
      _ ≤ cfg.maxResults := h2
  · intro r hr
    obtain ⟨hmin, r', _, rfl⟩ := mem_decayedFiltered_elim (mem_core_decayedFiltered hr)
    exact ⟨hmin, rfl⟩
  · have hs := @List.sorted_mergeSort DecayedResult scoreLe scoreLe_trans scoreLe_total
      (decayedFiltered resp cfg ageOf)
    have hp : List.Pairwise (fun a b : DecayedResult => b.score ≤ a.score)
        (sortedResults resp cfg ageOf) :=
      hs.imp fun h => of_decide_eq_true h
    exact hp.sublist (List.take_sublist _ _)

/-- The sample pipeline evaluates to the single decayed sample hit. -/
theorem searchSessionsCore_sample :
    searchSessionsCore sampleResp sampleCfg sampleAge = [decayResult sampleAge sampleHit] := by
  have hsf : sessionFiltered sampleResp = [sampleHit] := by
    simp [sessionFiltered, sampleResp, sampleHit]
  have hcond : decide (sampleCfg.minScore ≤ (decayResult sampleAge sampleHit).score) = true := by
    rw [decide_eq_true_eq]
    simp only [decayResult, sampleAge, sampleCfg, sampleHit, getDecayFactor_eq]
    norm_num
  have hdf : decayedFiltered sampleResp sampleCfg sampleAge = [decayResult sampleAge sampleHit] := by
    rw [decayedFiltered, hsf]
    simp only [applyDecay, List.map]
    simp [List.filter_cons, hcond]
  have hsort : sortedResults sampleResp sampleCfg sampleAge = [decayResult sampleAge sampleHit] := by
    rw [sortedResults, hdf, List.mergeSort_singleton]
  have hslice : sliceCount sampleCfg.maxResults = 5 := by
    have : ⌊sampleCfg.maxResults⌋ = 5 := by
      rw [show sampleCfg.maxResults = (5 : ℚ) from rfl]
      norm_num
    rw [sliceCount, this]
    rfl
  rw [searchSessionsCore, hsort, hslice]
  rfl

/-- C7: every result the pipeline returns carries the `"sessions"` source
tag; hits with any other tag are dropped before scoring. -/
theorem searchSessionsCore_source_sessions (resp : SearchResponse)
    (cfg : SessionRecallConfig) (ageOf : String → ℚ) :
    ∀ r ∈ searchSessionsCore resp cfg ageOf, r.source = "sessions" := by
  intro r hr
  obtain ⟨-, r', hr', rfl⟩ := mem_decayedFiltered_elim (mem_core_decayedFiltered hr)
  have h2 := (List.mem_filter.mp hr').2
  simpa [decayResult] using h2

/-- Non-vacuity of `searchSessionsCore_source_sessions`: the sample hit comes
out of the pipeline and is tagged `"sessions"`. -/
theorem searchSessionsCore_source_sessions_witness :
    (decayResult sampleAge sampleHit).source = "sessions" :=
  searchSessionsCore_source_sessions sampleResp sampleCfg sampleAge
    (decayResult sampleAge sampleHit) (by simp [searchSessionsCore_sample])

/-- Non-vacuity of `searchSessions_selector_contract`: the sample instance. -/
theorem searchSessions_selector_contract_witness :
    ((searchSessionsCore sampleResp sampleCfg sampleAge).length : ℚ) ≤ sampleCfg.maxResults :=
  (searchSessions_selector_contract sampleResp sampleCfg sampleAge
    (by rw [show sampleCfg.maxResults = (5 : ℚ) from rfl]; norm_num)).1

/-- First of two session hits with equal decayed scores. -/
def stabHit1 : SearchResult :=
  ⟨"/tmp/a.jsonl", 1, 2, 0.6, "first".toList, "sessions"⟩

/-- Second of two session hits with equal decayed scores. -/
def stabHit2 : SearchResult :=
  ⟨"/tmp/b.jsonl", 3, 4, 0.6, "second".toList, "sessions"⟩

/-- A backend response holding the two tied hits in order. -/
def stabResp : SearchResponse :=
  ⟨[stabHit1, stabHit2]⟩

/-- C10: the descending sort is stable, so two hits that tie on decayed
score keep their backend order: if `h₁` precedes `h₂` in the response, both
are session-tagged, both pass the decayed-score filter and their decayed
scores are equal, then their decayed versions appear in that same order in
the sorted sequence, of which the output is the `maxResults`-prefix — the
output order is fully determined by the input. -/
theorem searchSessions_sort_stable (resp : SearchResponse) (cfg : SessionRecallConfig)
    (ageOf : String → ℚ) (h₁ h₂ : SearchResult)
    (hsub : List.Sublist [h₁, h₂] resp.results)
    (hs₁ : h₁.source = "sessions") (hs₂ : h₂.source = "sessions")
    (hp₁ : cfg.minScore ≤ (decayResult ageOf h₁).score)
    (hp₂ : cfg.minScore ≤ (decayResult ageOf h₂).score)
    (heq : (decayResult ageOf h₁).score = (decayResult ageOf h₂).score) :
    List.Sublist [decayResult ageOf h₁, decayResult ageOf h₂] (sortedResults resp cfg ageOf) ∧
    searchSessionsCore resp cfg ageOf =
      (sortedResults resp cfg ageOf).take (sliceCount cfg.maxResults) := by
  refine ⟨?_, rfl⟩
  have step1 : List.Sublist [h₁, h₂] (sessionFiltered resp) := by
    have hf := hsub.filter (fun r => r.source == "sessions")
    rwa [show List.filter (fun r => r.source == "sessions") [h₁, h₂] = [h₁, h₂] by
      simp [List.filter_cons, hs₁, hs₂]] at hf
  have step2 : List.Sublist [decayResult ageOf h₁, decayResult ageOf h₂]
      (applyDecay ageOf (sessionFiltered resp)) := by
    simpa [applyDecay] using step1.map (decayResult ageOf)
  have step3 : List.Sublist [decayResult ageOf h₁, decayResult ageOf h₂]
      (decayedFiltered resp cfg ageOf) := by
    have hf := step2.filter (fun r => decide (cfg.minScore ≤ r.score))
    rwa [show List.filter (fun r => decide (cfg.minScore ≤ r.score))
        [decayResult ageOf h₁, decayResult ageOf h₂] =
        [decayResult ageOf h₁, decayResult ageOf h₂] by
      simp [List.filter_cons, hp₁, hp₂]] at hf
  exact List.pair_sublist_mergeSort scoreLe_trans scoreLe_total
    (by simp only [scoreLe, decide_eq_true_eq]; exact heq.ge) step3

/-- Non-vacuity of `searchSessions_sort_stable`: two tied sample hits stay
in backend order. -/
theorem searchSessions_sort_stable_witness :
    List.Sublist [decayResult sampleAge stabHit1, decayResult sampleAge stabHit2]
      (sortedResults stabResp sampleCfg sampleAge) :=
  (searchSessions_sort_stable stabResp sampleCfg sampleAge stabHit1 stabHit2
    (List.Sublist.refl _) rfl rfl
    (by simp only [decayResult, sampleAge, sampleCfg, stabHit1, getDecayFactor_eq]; norm_num)
    (by simp only [decayResult, sampleAge, sampleCfg, stabHit2, getDecayFactor_eq]; norm_num)
    rfl).1

/-- The skip decision for a present prompt, as a propositional disjunction. -/
theorem gateSkips_some_iff (p : String) (cfg : SessionRecallConfig) :
    gateSkips (some p) cfg = true ↔
      (p = "" ∨ ((p.toList.length : ℚ) < cfg.minPromptLength) ∨
       jsIncludes (jsToLower p) "heartbeat" = true ∨
       jsStartsWith (jsToLower p) "[system" = true) := by
  simp only [gateSkips]
  by_cases hcond : (p == "" || decide ((p.toList.length : ℚ) < cfg.minPromptLength)) = true
  · rw [if_pos hcond]
    simp only [Bool.or_eq_true, beq_iff_eq, decide_eq_true_eq] at hcond
    constructor
    · intro _
      rcases hcond with h | h
      · exact Or.inl h
      · exact Or.inr (Or.inl h)
    · intro _
      rfl
  · rw [if_neg hcond]
    simp only [Bool.or_eq_true, beq_iff_eq, decide_eq_true_eq, not_or] at hcond
    obtain ⟨hne, hlt⟩ := hcond
    simp only [Bool.or_eq_true]
    constructor
    · rintro (h | h)
      · exact Or.inr (Or.inr (Or.inl h))
      · exact Or.inr (Or.inr (Or.inr h))
    · rintro (h | h | h | h)
      · exact absurd h hne
      · exact absurd h hlt
      · exact Or.inl h
      · exact Or.inr h

/-- C3 (amended): the gate skips — returning no context and never reaching
the backend — exactly when the prompt is absent or empty (both are falsy in
JS), or shorter than `minPromptLength`, or its lower-cased form contains
"heartbeat" or starts with "[system"; in particular a prompt of length 3
with `minPromptLength = 10` is skipped. -/
theorem gate_skip_iff (prompt : Option String) (cfg : SessionRecallConfig) :
    (gateSkips prompt cfg = true ↔
      prompt = none ∨ ∃ p, prompt = some p ∧
        (p = "" ∨ ((p.toList.length : ℚ) < cfg.minPromptLength) ∨
         jsIncludes (jsToLower p) "heartbeat" = true ∨
         jsStartsWith (jsToLower p) "[system" = true)) ∧
    (gateSkips prompt cfg = true →
      ∀ (callResult : Option String) (parse : String → Option SearchResponse)
        (ageOf : String → ℚ),
        handleBeforeAgentStart prompt cfg callResult parse ageOf = none) ∧
    (∀ p, prompt = some p → p.toList.length = 3 → cfg.minPromptLength = 10 →
      gateSkips prompt cfg = true) := by
  refine ⟨?_, ?_, ?_⟩
  · cases prompt with
    | none => simp [gateSkips]
    | some p => simp [gateSkips_some_iff]
  · intro h callResult parse ageOf
    simp [handleBeforeAgentStart, h]
  · intro p hp hlen hmin
    subst hp
    refine (gateSkips_some_iff p cfg).mpr (Or.inr (Or.inl ?_))
    rw [hlen, hmin]
    norm_num

/-- Non-vacuity of `gate_skip_iff`: a three-character prompt under the
default ten-character minimum is skipped and yields no context. -/
theorem gate_skip_iff_witness :
    gateSkips (some "abc") sampleCfg = true ∧
    handleBeforeAgentStart (some "abc") sampleCfg (some "output") (fun _ => none)
      sampleAge = none := by
  have h := gate_skip_iff (some "abc") sampleCfg
  have h1 := h.2.2 "abc" rfl (by decide) rfl
  exact ⟨h1, h.2.1 h1 _ _ _⟩

/-- Configuration with `minPromptLength = 0`, admissible under the schema
(`z.number().default(10)` imposes no lower bound). -/
def emptyMinCfg : SessionRecallConfig :=
  ⟨true, 5, 0.5, 0, "main"⟩

/-- Counterexample to C3 as stated: with `minPromptLength = 0` and an empty
(present) prompt, the gate skips although the prompt is not absent, its
length is not below `minPromptLength`, and neither heuristic matches — the
code tests JS falsiness (`!event.prompt`), which an empty string triggers. -/
theorem gate_skip_counterexample :
    gateSkips (some "") emptyMinCfg = true ∧
    (some "" : Option String) ≠ none ∧
    ¬ ((("" : String).toList.length : ℚ) < emptyMinCfg.minPromptLength) ∧
    jsIncludes (jsToLower "") "heartbeat" = false ∧
    jsStartsWith (jsToLower "") "[system" = false := by
  refine ⟨rfl, by simp, ?_, rfl, rfl⟩
  rw [show ("" : String).toList.length = 0 from rfl,
    show emptyMinCfg.minPromptLength = (0 : ℚ) from rfl]
  norm_num
